import Mathlib

/-!
Formal model of the HTTomo execution-planning and runtime data-flow engine.

The definitions below are shallow embeddings of the Python sources:
  httomo/task_runner.py     (planner, sectioner, chunk sizer, executor loop)
  httomo/wrappers_class.py  (method wrappers, rotation coordinator, kwargs merge)
  httomo/common.py          (data model: MethodFunc, PlatformSection, ...)
Numbers are modelled as Nat, Python dicts as ordered association lists
(insertion order preserved, as CPython guarantees), arrays as an opaque
value type, and fallible code via Except / Option.
-/

/-- httomo.utils.Pattern: the slicing requirement of a step
(projection = axis 0, sinogram = axis 1, all = no constraint). -/
inductive Pattern
  | projection
  | sinogram
  | all
deriving DecidableEq, Repr

/-- Element datatypes of the volume (numpy dtypes relevant to the engine;
the engine treats them opaquely and only threads them through estimators). -/
inductive DType
  | uint8
  | uint16
  | int32
  | float32
  | float64
deriving DecidableEq, Repr

/-- Memory-cost estimator contract from httomo/common.py (calc_max_slices):
(slice_dim, non_slice_dims_shape, dtype, available_memory) ->
(max_slices, output_dtype, output_non_slice_dims_shape). -/
def MemEstimator : Type :=
  Nat → (Nat × Nat) → DType → Nat → Nat × DType × (Nat × Nat)

/-- One entry of a step's declared output datasets: either a single dataset
name, or a list of names (multiple outputs matched to one input). -/
inductive OutSpec
  | one (s : String)
  | many (l : List String)
deriving DecidableEq, Repr

/-- A parameter value from the declarative pipeline configuration.
A tuple value (tup) denotes a parameter sweep, exactly as
_check_params_for_sweep tests with type(v) is tuple. -/
inductive PVal (α : Type)
  | scalar (a : α)
  | pbool (b : Bool)
  | pstr (s : String)
  | tup (l : List α)
  | names (l : List String)
  | outs (l : List OutSpec)
deriving DecidableEq

/-- Whether a parameter value is a Python tuple (a declared sweep). -/
def PVal.isTup {α : Type} : PVal α → Bool
  | .tup _ => true
  | _ => false

/-- An ordered parameter dictionary (Python dict: insertion ordered). -/
abbrev ParamMap (α : Type) : Type := List (String × PVal α)

/-- httomo.common.MethodFunc.  The Python callable fields (method_func,
wrapper_func) are represented by methodName, which stands for
method_func.__name__; the actual invocation is supplied to the executor
model as an explicit collaborator function. -/
structure MethodFunc (α : Type) where
  moduleName : String
  methodName : String
  calcMaxSlices : Option MemEstimator := none
  parameters : ParamMap α := []
  pattern : Pattern := Pattern.projection
  cpu : Bool := true
  gpu : Bool := false
  resliceAhead : Bool := false
  isLoader : Bool := false
  isLastMethod : Bool := false

/-- httomo.common.PlatformSection. -/
structure PlatformSection (α : Type) where
  gpu : Bool
  pattern : Pattern
  maxSlices : Nat
  methods : List (MethodFunc α)

/-! ### Reslice planner (task_runner.py, _check_if_should_reslice) -/

/-- The loop body of _check_if_should_reslice: walks the methods keeping
the running current_pattern; a step whose pattern differs from it and is
not Pattern.all is marked reslice_ahead := true (dataclasses.replace) and
becomes the new current_pattern. -/
def checkIfShouldResliceAux {α : Type} :
    List (MethodFunc α) → Pattern → List (MethodFunc α)
  | [], _ => []
  | m :: rest, cur =>
    if m.pattern ≠ cur ∧ m.pattern ≠ Pattern.all then
      { m with resliceAhead := true } :: checkIfShouldResliceAux rest m.pattern
    else
      m :: checkIfShouldResliceAux rest cur

/-- _check_if_should_reslice: current_pattern is initialised to the first
method's pattern and the loop runs over the whole list (the first method is
never marked, since its pattern equals current_pattern).  The Python code
indexes methods[0] and so presupposes a non-empty list; the empty case is
mapped to the empty plan. -/
def checkIfShouldReslice {α : Type} (methods : List (MethodFunc α)) :
    List (MethodFunc α) :=
  match methods with
  | [] => []
  | m :: _ => checkIfShouldResliceAux methods m.pattern

/-- reslice_info.reslice_bool_list = [m.reslice_ahead for m in method_funcs]
(task_runner.py line 102), read off after planning. -/
def reslicePlan {α : Type} (methods : List (MethodFunc α)) : List Bool :=
  (checkIfShouldReslice methods).map (fun m => m.resliceAhead)

/-- Number of true entries in a boolean plan. -/
def trueCount : List Bool → Nat
  | [] => 0
  | b :: rest => (if b then 1 else 0) + trueCount rest

/-- The pattern sequence with every Pattern.all entry elided. -/
def elideAll (pats : List Pattern) : List Pattern :=
  pats.filter (fun p => decide (p ≠ Pattern.all))

/-- Number of genuine pattern transitions: adjacent pairs that differ. -/
def patternTransitions : List Pattern → Nat
  | a :: b :: rest => (if a ≠ b then 1 else 0) + patternTransitions (b :: rest)
  | _ => 0

/-! ### Platform sectioner (task_runner.py, _determine_platform_sections) -/

/-- The loop of _determine_platform_sections: greedily extend the current
section (accumulator acc) while the step keeps the same gpu flag and a
compatible pattern; when current_pattern is Pattern.all and the step's is
concrete, the section adopts the step's pattern; on a break, close the
section and seed a new one with the breaking step.  The final section is
appended after the loop. -/
def determinePlatformSectionsAux {α : Type} :
    List (MethodFunc α) → Bool → Pattern → List (MethodFunc α) →
    List (PlatformSection α)
  | [], curGpu, curPat, acc => [⟨curGpu, curPat, 0, acc⟩]
  | m :: rest, curGpu, curPat, acc =>
    if m.gpu = curGpu ∧
        (m.pattern = curPat ∨ m.pattern = Pattern.all ∨ curPat = Pattern.all) then
      let newPat :=
        if curPat = Pattern.all ∧ m.pattern ≠ Pattern.all then m.pattern else curPat
      determinePlatformSectionsAux rest curGpu newPat (acc ++ [m])
    else
      ⟨curGpu, curPat, 0, acc⟩ ::
        determinePlatformSectionsAux rest m.gpu m.pattern [m]

/-- _determine_platform_sections: the running gpu flag and pattern start
from the first method (which therefore always joins the initial empty
accumulator).  Python indexes method_funcs[0] and presupposes a non-empty
list; the empty case is mapped to no sections. -/
def determinePlatformSections {α : Type} :
    List (MethodFunc α) → List (PlatformSection α)
  | [] => []
  | m :: rest => determinePlatformSectionsAux (m :: rest) m.gpu m.pattern []

/-! ### Chunk sizer (task_runner.py, _update_max_slices) -/

/-- Slicing axis of a section: Pattern.sinogram slices axis 1, otherwise
(projection or all) axis 0 (task_runner.py lines 749-755). -/
def sectionSliceDim (p : Pattern) : Nat :=
  if p = Pattern.sinogram then 1 else 0

/-- non_slice_dims_shape: the two dimensions that remain when the slicing
axis is removed from the (d0, d1, d2) input shape. -/
def sectionNonSliceShape (p : Pattern) (shape : Nat × Nat × Nat) : Nat × Nat :=
  if p = Pattern.sinogram then (shape.1, shape.2.2) else (shape.2.1, shape.2.2)

/-- max_slices = process_data_shape[slice_dim]: input length along the
section's slicing axis. -/
def sectionAxisLen (p : Pattern) (shape : Nat × Nat × Nat) : Nat :=
  if p = Pattern.sinogram then shape.2.1 else shape.1

/-- The estimator loop of the GPU branch of _update_max_slices.  Python
prefills max_slices_methods with max_slices and overwrites a growing prefix
(index idx is incremented only when a step has an estimator) with
min(max_slices, slices_estimated); here the overwritten prefix is collected
directly, and the caller pads with the prefill value.  data_type and
output_dims are threaded forward so each estimator sees the dtype and
non-slice shape produced by the preceding estimator-bearing step; a step
without an estimator leaves them unchanged. -/
def gpuEstimatesLoop {α : Type} (sliceDim mem maxSlices : Nat) :
    List (MethodFunc α) → (Nat × Nat) → DType → List Nat × DType × (Nat × Nat)
  | [], nss, dt => ([], dt, nss)
  | m :: rest, nss, dt =>
    match m.calcMaxSlices with
    | some est =>
      let r := est sliceDim nss dt mem
      let t := gpuEstimatesLoop sliceDim mem maxSlices rest r.2.2 r.2.1
      (min maxSlices r.1 :: t.1, t.2)
    | none => gpuEstimatesLoop sliceDim mem maxSlices rest nss dt

/-- _update_max_slices.  The available GPU memory, queried in Python by
_get_available_gpu_memory(10.0) (an external device query, outside this
model), is passed in as availableMemory; the estimators receive exactly
this value.  Returns none when the shape or dtype is not yet known (the
early Python return None) and when a GPU section has no methods (Python's
min([]) raises ValueError).  The invalid-pattern branch of the Python code
cannot arise, since Pattern is the three-valued enum.  On the CPU branch
max_slices is simply the input length along the slicing axis and the input
dtype / non-slice shape are returned unchanged. -/
def updateMaxSlices {α : Type} (sec : PlatformSection α)
    (processDataShape : Option (Nat × Nat × Nat)) (inputDataType : Option DType)
    (availableMemory : Nat) :
    Option (PlatformSection α × DType × (Nat × Nat)) :=
  match processDataShape, inputDataType with
  | some shape, some dt =>
    let sliceDim := sectionSliceDim sec.pattern
    let nonSliceDimsShape := sectionNonSliceShape sec.pattern shape
    let maxSlices := sectionAxisLen sec.pattern shape
    if sec.gpu then
      let est := gpuEstimatesLoop sliceDim availableMemory maxSlices
        sec.methods nonSliceDimsShape dt
      let maxSlicesMethods :=
        est.1 ++ List.replicate (sec.methods.length - est.1.length) maxSlices
      match maxSlicesMethods with
      | [] => none
      | a :: rest => some ({ sec with maxSlices := rest.foldl min a }, est.2)
    else
      some ({ sec with maxSlices := maxSlices }, dt, nonSliceDimsShape)
  | _, _ => none

/-- The slice caps contributed by the steps of a section, in order: each
estimator-bearing step contributes its estimated cap, fed with the dtype
and non-slice shape produced by the preceding step; a step without an
estimator contributes no cap and passes dtype and shape through unchanged.
Also returns the final propagated dtype and non-slice shape. -/
def sectionStepCaps {α : Type} (sliceDim mem : Nat) :
    List (MethodFunc α) → (Nat × Nat) → DType → List Nat × DType × (Nat × Nat)
  | [], nss, dt => ([], dt, nss)
  | m :: rest, nss, dt =>
    match m.calcMaxSlices with
    | some est =>
      let r := est sliceDim nss dt mem
      let t := sectionStepCaps sliceDim mem rest r.2.2 r.2.1
      (r.1 :: t.1, t.2)
    | none => sectionStepCaps sliceDim mem rest nss dt

/-- _check_params_for_sweep: the number of tuple-valued parameters of one
method's parameter dict. -/
def checkParamsForSweep {α : Type} (params : ParamMap α) : Nat :=
  (params.filter (fun p => p.2.isTup)).length

/-! ### Dataset registry and executor (task_runner.py, run_method / run_tasks)

The registry values are the Python objects held by dict_datasets_pipeline:
None (a declared but not yet produced dataset), a single array, or a list
of arrays (the fan-out of a parameter sweep).  Arrays themselves are
opaque values of a type parameter.  Each invocation of the external
step-execution collaborator is recorded, in pipeline order, in a trace of
method names, so that statements about when an error is raised relative to
step execution can be made. -/

/-- A value stored in the dataset registry: Python None, one array, or a
list of values. -/
inductive Obj (α : Type)
  | none'
  | arr (a : α)
  | list (l : List (Obj α))

/-- dict_datasets_pipeline: dataset name to stored value.  Initialisation
gives every declared dataset None; the model makes the dict total with
None as the default. -/
def Registry (α : Type) : Type := String → Obj α

/-- type(v) is list branching: a list value yields its elements, anything
else (None included) is wrapped as a one-element list of arrays. -/
def toArrs {α : Type} : Obj α → List (Obj α)
  | .list l => l
  | v => [v]

/-- Python dict assignment d[k] = v on an ordered association list: an
existing key keeps its position, a new key is appended. -/
def setParam {α : Type} : ParamMap α → String → PVal α → ParamMap α
  | [], k, v => [(k, v)]
  | (k0, v0) :: rest, k, v =>
    if k0 = k then (k, v) :: rest else (k0, v0) :: setParam rest k v

/-- Python dict lookup d.get(k) on an ordered association list. -/
def lookupParam {α : Type} : ParamMap α → String → Option (PVal α)
  | [], _ => none
  | (k0, v0) :: rest, k => if k0 = k then some v0 else lookupParam rest k

/-- The external step-execution collaborator (func_wrapper): invoked with
the method name, the method's parameter dict and the data array. -/
def Executor (α : Type) : Type := String → ParamMap α → Obj α → Obj α

/-- Storing resliced data back into the registry (run_method lines
546-549): positionally when the stored dataset is a list, else wholesale. -/
def storeResliced {α : Type} (reg : Registry α) (name : String) (i : Nat)
    (r : Obj α) : Registry α :=
  match reg name with
  | .list l => Function.update reg name (Obj.list (l.set i r))
  | _ => Function.update reg name r

/-- The parameter-sweep loop (run_method lines 569-579): for each value in
order, the swept parameter is set in the (mutated, threaded) parameter
dict, the collaborator is invoked, and the result is appended. -/
def sweepLoop {α : Type} (fw : Executor α) (mname pname : String) :
    List α → ParamMap α → Obj α → List String →
    List (Obj α) × ParamMap α × List String
  | [], params, _, tr => ([], params, tr)
  | v :: rest, params, data, tr =>
    let p := setParam params pname (PVal.scalar v)
    let res := fw mname p data
    let t := sweepLoop fw mname pname rest p data (tr ++ [mname])
    (res :: t.1, t.2)

/-- zip(res, datasets) storing of a multi-output result (run_method lines
589-592): pairs are written in order, stopping at the shorter sequence. -/
def storeMulti {α : Type} (reg : Registry α) (vals : List (Obj α))
    (datasets : List String) : Registry α :=
  (vals.zip datasets).foldl (fun r p => Function.update r p.2 p.1) reg

/-- The characters of a string as one-character strings: what Python's
zip(res, out_dataset) iterates over when out_dataset is a single name. -/
def charNames (s : String) : List String :=
  s.data.map (fun c => String.mk [c])

/-- Whether a declared output entry is a list of names. -/
def OutSpec.isMany : OutSpec → Bool
  | .many _ => true
  | .one _ => false

def saverSweepErr : String := "Parameters sweeps on savers is not supported"

def multiOutSweepErr : String :=
  "Parameter sweeps on methods with multiple output datasets is not supported"

/-- The inner loop over arrs (run_method lines 521-599) for a method other
than save_to_images: per array, an optional reslice (stored back into the
registry), then either the sweep loop (whose accumulated list is written to
the output dataset) or a single invocation whose result is stored - a
tuple/list result is zipped with the declared output names (with the
Python quirk that zipping against a single name iterates its characters),
a single result overwrites, or positionally updates an earlier sweep list.
Writing to a list-valued output key name is Python's TypeError. -/
def arrLoop {α : Type} (fw : Executor α) (transport : Obj α → Obj α)
    (mname : String) (sweepName : Option String) (sweepVals : List α)
    (shouldReslice : Bool) (inD : String) (outD : OutSpec) :
    List (Obj α) → Nat → Registry α → ParamMap α → List (Obj α) →
    List String →
    List String × Except String (Registry α × ParamMap α × List (Obj α))
  | [], _, reg, params, out, tr => (tr, .ok (reg, params, out))
  | arrv :: rest, i, reg, params, out, tr =>
    let step1 : Registry α × Obj α :=
      if shouldReslice then
        let r := transport arrv
        (storeResliced reg inD i r, r)
      else (reg, arrv)
    match sweepName with
    | some pname =>
      let t := sweepLoop fw mname pname sweepVals params step1.2 tr
      let out2 := out ++ t.1
      match outD with
      | OutSpec.one s =>
        arrLoop fw transport mname sweepName sweepVals shouldReslice inD outD
          rest (i+1) (Function.update step1.1 s (Obj.list out2)) t.2.1 out2 t.2.2
      | OutSpec.many _ => (t.2.2, .error "TypeError: unhashable type")
    | none =>
      let res := fw mname params step1.2
      let tr2 := tr ++ [mname]
      match res with
      | Obj.list vals =>
        match outD with
        | OutSpec.many datasets =>
          arrLoop fw transport mname sweepName sweepVals shouldReslice inD outD
            rest (i+1) (storeMulti step1.1 vals datasets) params out tr2
        | OutSpec.one s =>
          arrLoop fw transport mname sweepName sweepVals shouldReslice inD outD
            rest (i+1) (storeMulti step1.1 vals (charNames s)) params out tr2
      | res =>
        match outD with
        | OutSpec.one s =>
          let reg2 :=
            match step1.1 s with
            | Obj.list l => Function.update step1.1 s (Obj.list (l.set i res))
            | _ => Function.update step1.1 s res
          arrLoop fw transport mname sweepName sweepVals shouldReslice inD outD
            rest (i+1) reg2 params out tr2
        | OutSpec.many _ => (tr2, .error "TypeError: unhashable type")

/-- The inner loop over arrs for save_to_images (run_method lines 521-567):
per array, the subfolder_name parameter is set to images_i, an optional
reslice is stored back, and the collaborator is invoked purely for its
side effect - nothing is written to the registry. -/
def saveLoop {α : Type} (fw : Executor α) (transport : Obj α → Obj α)
    (shouldReslice : Bool) (inD : String) :
    List (Obj α) → Nat → Registry α → ParamMap α → List String →
    Registry α × ParamMap α × List String
  | [], _, reg, params, tr => (reg, params, tr)
  | arrv :: rest, i, reg, params, tr =>
    let params1 :=
      setParam params "subfolder_name" (PVal.pstr ("images_" ++ toString i))
    let step1 : Registry α × Obj α :=
      if shouldReslice then
        let r := transport arrv
        (storeResliced reg inD i r, r)
      else (reg, arrv)
    let _res := fw "save_to_images" params1 step1.2
    saveLoop fw transport shouldReslice inD rest (i+1) step1.1 params1
      (tr ++ ["save_to_images"])

/-- The Run-Method Context (httomo.common.RunMethodInfo): the fields the
data-flow model consumes.  The current/next slicing axes and the
persistence flag of the Python dataclass parameterise only the external
transport and persistence collaborators, which this model takes as
explicit function arguments; the computed floating-point statistics
(glob_stats) live outside the model. -/
structure RunMethodInfo (α : Type) where
  dictParams : ParamMap α := []
  dataIn : List String := []
  dataOut : List OutSpec := []
  shouldReslice : Bool := false
  paramSweepName : Option String := none
  paramSweepVals : List α := []
  methodName : String := ""

/-- Modelled from the spec: postrun_method (module httomo.postrun is absent
from the sources) invokes the persistence collaborator for
persistence-worthy steps; no return value is consumed by the core and the
dataset registry is left unchanged. -/
def postrunMethod {α : Type} (reg : Registry α) : Registry α := reg

/-- The loop over the method's input datasets (run_method lines 462-608).
Per input dataset: the saver/sweep configuration error fires first; then
arrs is the stored value's list of arrays (wrapped whole for a sweeping
step); the positionally matched output entry is looked up (IndexError when
data_out is shorter than data_in); the multi-output/sweep configuration
error fires; then the arr loop runs.  save_to_images returns early after
its first input dataset, skipping the rest. -/
def datasetLoop {α : Type} (fw : Executor α) (transport : Obj α → Obj α)
    (info : RunMethodInfo α) :
    List String → Nat → Registry α → ParamMap α → List String →
    List String × Except String (Registry α)
  | [], _, reg, _, tr => (tr, .ok reg)
  | inD :: rest, idx, reg, params, tr =>
    if info.methodName = "save_to_images" ∧ info.paramSweepName.isSome then
      (tr, .error saverSweepErr)
    else
      let arrs :=
        if info.methodName ≠ "save_to_images" ∧ info.paramSweepName.isSome then
          [reg inD]
        else toArrs (reg inD)
      match info.dataOut.get? idx with
      | none => (tr, .error "IndexError: list index out of range")
      | some outD =>
        if outD.isMany ∧ info.paramSweepName.isSome then
          (tr, .error multiOutSweepErr)
        else if info.methodName = "save_to_images" then
          let t := saveLoop fw transport info.shouldReslice inD arrs 0 reg params tr
          (t.2.2, .ok t.1)
        else
          match arrLoop fw transport info.methodName info.paramSweepName
              info.paramSweepVals info.shouldReslice inD outD arrs 0 reg params
              [] tr with
          | (tr2, .error e) => (tr2, .error e)
          | (tr2, .ok t) =>
            datasetLoop fw transport info rest (idx + 1) (postrunMethod t.1)
              t.2.1 tr2

/-- run_method: executes one pipeline step over the registry, returning the
invocation trace alongside the outcome. -/
def runMethod {α : Type} (fw : Executor α) (transport : Obj α → Obj α)
    (info : RunMethodInfo α) (reg : Registry α) (tr : List String) :
    List String × Except String (Registry α) :=
  datasetLoop fw transport info info.dataIn 0 reg info.dictParams tr

/-- Modelled from the spec: prerun_method (module httomo.prerun is absent
from the sources) assembles the Run-Method Context immediately before a
step runs: the resolved input/output dataset name lists from the
data_in / data_in_multi and data_out / data_out_multi parameters, the
sweep name and tuple of values when one parameter is tuple-valued, and
whether a reslice must happen now (the plan's reslice_ahead flag).  The
dataset-routing keys and method_name are engine-level bookkeeping, not
method parameters, and are excluded from the method's parameter dict. -/
def prerunMethod {α : Type} (m : MethodFunc α) : RunMethodInfo α :=
  let ps := m.parameters
  let dataIn : List String :=
    match lookupParam ps "data_in_multi" with
    | some (PVal.names l) => l
    | _ =>
      match lookupParam ps "data_in" with
      | some (PVal.pstr s) => [s]
      | _ => []
  let dataOut : List OutSpec :=
    match lookupParam ps "data_out_multi" with
    | some (PVal.names l) => l.map OutSpec.one
    | _ =>
      match lookupParam ps "data_out" with
      | some (PVal.pstr s) => [OutSpec.one s]
      | some (PVal.names l) => l.map OutSpec.one
      | some (PVal.outs l) => l
      | _ => []
  let sweep := ps.find? (fun p => p.2.isTup)
  { dictParams := ps.filter (fun p =>
      !(["data_in", "data_out", "data_in_multi", "data_out_multi",
         "method_name"].contains p.1))
    dataIn := dataIn
    dataOut := dataOut
    shouldReslice := m.resliceAhead
    paramSweepName := sweep.map (fun p => p.1)
    paramSweepVals :=
      match sweep with
      | some (_, PVal.tup l) => l
      | _ => []
    methodName := m.methodName }

def sweepCountErr (n : Nat) : String :=
  "There are " ++ toString n ++
    " parameter sweeps in the pipeline, but a maximum of 1 is supported."

/-- The executor loop of run_tasks (lines 183-213): each non-loader method
runs in order over the threaded registry; a failure aborts the run. -/
def stepsLoop {α : Type} (fw : Executor α) (transport : Obj α → Obj α) :
    List (MethodFunc α) → Registry α → List String →
    List String × Except String (Registry α)
  | [], reg, tr => (tr, .ok reg)
  | m :: rest, reg, tr =>
    match runMethod fw transport (prerunMethod m) reg tr with
    | (tr2, .error e) => (tr2, .error e)
    | (tr2, .ok reg2) => stepsLoop fw transport rest reg2 tr2

/-- run_tasks, planning then execution, in source order: the reslice plan
and platform sections are computed, the number of parameter sweeps over
all methods is counted and more than one aborts the run; only then does
the loader populate the registry (its data, flats and darks - produced by
the external loader collaborator and passed in here) and the method loop
start.  The returned trace lists every step-collaborator invocation. -/
def runTasks {α : Type} (methods : List (MethodFunc α))
    (loaderData flats darks : Obj α) (fw : Executor α)
    (transport : Obj α → Obj α) :
    List String × Except String (Registry α) :=
  match methods with
  | [] => ([], .error "IndexError: empty pipeline")
  | loader :: rest =>
    let planned := checkIfShouldReslice (loader :: rest)
    let _sections := determinePlatformSections (planned.drop 1)
    let noOfSweeps :=
      ((loader :: rest).map (fun m => checkParamsForSweep m.parameters)).sum
    if noOfSweeps > 1 then
      ([], .error (sweepCountErr noOfSweeps))
    else
      match lookupParam loader.parameters "name" with
      | some (PVal.pstr nm) =>
        let reg0 : Registry α := fun _ => Obj.none'
        let reg1 :=
          Function.update
            (Function.update (Function.update reg0 nm loaderData) "flats" flats)
            "darks" darks
        stepsLoop fw transport (planned.drop 1) reg1 []
      | _ => ([], .error "KeyError: name")

/-! ### httomolibgpu wrapper (wrappers_class.py, HttomolibgpuWrapper) -/

/-- Python double-splat merge of two dicts: the keys of the first in their
order with values overridden by the second where present, then the keys of
the second not in the first, in their order (dict keys are unique). -/
def dictMerge {α : Type} (a b : ParamMap α) : ParamMap α :=
  a.map (fun p => (p.1, (lookupParam b p.1).getD p.2)) ++
    b.filter (fun p => (lookupParam a p.1).isNone)

/-- The state of a HttomolibgpuWrapper that calc_max_slices reads: whether
the underlying function supports CuPy (self.cupyrun, from the method
decorator's metadata), the default-valued parameters of the method's
declared signature (the pairs collected from meta.signature whose default
is not Parameter.empty - the signature itself is external library
metadata), the user parameters from the pipeline file (self.dict_params),
and the method's declared estimator (meta.calc_max_slices), which takes
the merged keyword arguments in addition to the four contract arguments. -/
structure HttomolibgpuWrapper (α : Type) where
  cupyrun : Bool
  signatureDefaults : ParamMap α
  dictParams : ParamMap α
  metaCalcMaxSlices :
    Nat → (Nat × Nat) → DType → Nat → ParamMap α → Nat × DType × (Nat × Nat)

/-- HttomolibgpuWrapper.calc_max_slices (wrappers_class.py lines 340-362):
without GPU support a huge constant cap is returned; otherwise the declared
estimator is invoked with the four contract arguments plus the signature
defaults overridden by the user parameters. -/
def HttomolibgpuWrapper.calcMaxSlices {α : Type} (w : HttomolibgpuWrapper α)
    (sliceDim : Nat) (nonSliceDimsShape : Nat × Nat) (dtype : DType)
    (availableMemory : Nat) : Nat × DType × (Nat × Nat) :=
  if ¬ w.cupyrun then
    (1000000000, dtype, nonSliceDimsShape)
  else
    w.metaCalcMaxSlices sliceDim nonSliceDimsShape dtype availableMemory
      (dictMerge w.signatureDefaults w.dictParams)

/-! ### Rotation coordinator (wrappers_class.py, BaseWrapper._execute_rotation) -/

/-- Python round() on an exact rational: round half to even. -/
def roundHalfEven (q : ℚ) : ℤ :=
  let f := Int.floor q
  let r := q - f
  if r < 1 / 2 then f
  else if 1 / 2 < r then f + 1
  else if f % 2 = 0 then f else f + 1

/-- mid_rank = int(round(self.comm.size / 2) + 0.1) (wrappers_class.py line
190).  n / 2 is an exact dyadic float, Python round() on it is round half
to even and yields an integer m; m + 0.1 is strictly between m and m + 1
(float 0.1 is slightly above 1/10), so int() truncates it back to m.  The
result is therefore round-half-to-even of n / 2. -/
def midRank (n : Nat) : ℤ :=
  roundHalfEven ((n : ℚ) / 2)

/-- The mid rank as a worker index. -/
def midRankNat (n : Nat) : Nat :=
  (midRank n).toNat

/-- The coordinating-worker selection rule as the spec states it:
round(workerCount / 2 + 0.1). -/
def specMidRank (n : Nat) : ℤ :=
  roundHalfEven ((n : ℚ) / 2 + 1 / 10)

/-- The centering value held by one worker before the broadcast
(wrappers_class.py lines 186-199): only the worker whose rank equals
mid_rank runs the method (an external numerical collaborator, passed in as
the computed value); every other worker keeps the initialisation value
(rot_center = 0 etc.). -/
def rotationLocalValue {α : Type} (n rank : Nat) (computed init : α) : α :=
  if rank = midRankNat n then computed else init

/-- The value every worker holds after comm.bcast(..., root=mid_rank)
(wrappers_class.py lines 201-221): the coordinating worker's local value. -/
def rotationBroadcastValue {α : Type} (n : Nat) (computed init : α) : α :=
  rotationLocalValue n (midRankNat n) computed init

/-! ### Concrete instances used in examples and witnesses -/

/-- A minimal concrete step with a given pattern. -/
def mkMethod (p : Pattern) : MethodFunc Nat :=
  { moduleName := "httomolib.misc", methodName := "method", pattern := p }

/-- A step-execution collaborator that returns a fixed array. -/
def fwConst : Executor Nat := fun _ _ _ => Obj.arr 0

/-- A step-execution collaborator that returns the value of its swept
center parameter, making the order of sweep results observable. -/
def fwSweep : Executor Nat := fun _ ps _ =>
  match lookupParam ps "center" with
  | some (PVal.scalar v) => Obj.arr v
  | _ => Obj.none'

/-- The loader step of the concrete pipelines below. -/
def cexLoader : MethodFunc Nat :=
  { moduleName := "httomo.data.hdf.loaders", methodName := "standard_tomo",
    parameters := [("name", PVal.pstr "tomo")], pattern := Pattern.projection,
    isLoader := true }

/-- An ordinary single-output step reading the loader's dataset. -/
def cexNormalize : MethodFunc Nat :=
  { moduleName := "httomolib.prep.normalize", methodName := "normalize",
    parameters := [("data_in", PVal.pstr "tomo"), ("data_out", PVal.pstr "norm")],
    pattern := Pattern.projection }

/-- A step that declares a parameter sweep together with two output
datasets for its single input. -/
def cexSweepMultiOut : MethodFunc Nat :=
  { moduleName := "httomolib.recon.rotation", methodName := "sweeper",
    parameters := [("data_in", PVal.pstr "norm"),
      ("data_out", PVal.outs [OutSpec.many ["a", "b"]]),
      ("center", PVal.tup [10, 20, 30])],
    pattern := Pattern.projection }

/-- A memory estimator returning a constant slice cap of 120. -/
def est120 : MemEstimator := fun _ nss dt _ => (120, dt, nss)

/-- A memory estimator returning a constant slice cap of 45. -/
def est45 : MemEstimator := fun _ nss dt _ => (45, dt, nss)

/-- A GPU step with the 120-cap estimator. -/
def gpuStep120 : MethodFunc Nat :=
  { mkMethod Pattern.projection with gpu := true, calcMaxSlices := some est120 }

/-- A GPU step with the 45-cap estimator. -/
def gpuStep45 : MethodFunc Nat :=
  { mkMethod Pattern.projection with gpu := true, calcMaxSlices := some est45 }

/-- A two-step GPU section whose estimators cap slices at 120 and 45. -/
def gpuSec : PlatformSection Nat :=
  { gpu := true, pattern := Pattern.projection, maxSlices := 0,
    methods := [gpuStep120, gpuStep45] }

/-- A one-step CPU section that nevertheless carries an estimator. -/
def cpuSec : PlatformSection Nat :=
  { gpu := false, pattern := Pattern.sinogram, maxSlices := 0,
    methods := [{ mkMethod Pattern.sinogram with calcMaxSlices := some est45 }] }

/-- A Run-Method Context declaring a sweep over center = (10, 20, 30) with
one input and one output dataset. -/
def sweepInfo : RunMethodInfo Nat :=
  { dictParams := [("center", PVal.tup [10, 20, 30])],
    dataIn := ["norm"], dataOut := [OutSpec.one "out"],
    paramSweepName := some "center", paramSweepVals := [10, 20, 30],
    methodName := "sweeper" }

/-- A Run-Method Context combining a sweep with the image saver. -/
def saverSweepInfo : RunMethodInfo Nat :=
  { dictParams := [("center", PVal.tup [1, 2])], dataIn := ["x"],
    dataOut := [OutSpec.one "y"], paramSweepName := some "center",
    paramSweepVals := [1, 2], methodName := "save_to_images" }

/-- A Run-Method Context combining a sweep with two output datasets. -/
def multiOutSweepInfo : RunMethodInfo Nat :=
  { dictParams := [("center", PVal.tup [1, 2])], dataIn := ["x"],
    dataOut := [OutSpec.many ["a", "b"]], paramSweepName := some "center",
    paramSweepVals := [1, 2], methodName := "recon" }

/-- A step declaring a sweep over parameter p. -/
def sweepStepA : MethodFunc Nat :=
  { moduleName := "tomopy.prep.normalize", methodName := "stepA",
    parameters := [("data_in", PVal.pstr "tomo"),
      ("data_out", PVal.pstr "da"), ("p", PVal.tup [1, 2])],
    pattern := Pattern.projection }

/-- A second step declaring an independent sweep over parameter q. -/
def sweepStepB : MethodFunc Nat :=
  { moduleName := "tomopy.prep.stripe", methodName := "stepB",
    parameters := [("data_in", PVal.pstr "da"),
      ("data_out", PVal.pstr "db"), ("q", PVal.tup [3, 4])],
    pattern := Pattern.projection }

/-- The wrapper state of httomolibgpu prep.normalize as exercised by
test_httomolibgpu_wrapper_max_slices_passes_kwargs: signature defaults
cutoff=10.0, minus_log=False, nonnegativity=False, remove_nans=False and
user parameters testarg=1, minus_log=True. -/
def normalizeWrapper : HttomolibgpuWrapper Nat :=
  { cupyrun := true,
    signatureDefaults := [("cutoff", PVal.scalar 10),
      ("minus_log", PVal.pbool false), ("nonnegativity", PVal.pbool false),
      ("remove_nans", PVal.pbool false)],
    dictParams := [("testarg", PVal.scalar 1), ("minus_log", PVal.pbool true)],
    metaCalcMaxSlices := fun _ nss dt _ kwargs => (kwargs.length, dt, nss) }

/-! ### Supporting lemmas: reslice planner -/

theorem elideAll_cons (p : Pattern) (l : List Pattern) :
    elideAll (p :: l) =
      if p = Pattern.all then elideAll l else p :: elideAll l := by
  by_cases h : p = Pattern.all <;> simp [elideAll, h]

theorem patternTransitions_pair (a b : Pattern) (l : List Pattern) :
    patternTransitions (a :: b :: l) =
      (if a ≠ b then 1 else 0) + patternTransitions (b :: l) := rfl

theorem trueCount_checkAux {α : Type} (ms : List (MethodFunc α)) :
    ∀ (cur : Pattern), (∀ x ∈ ms, x.resliceAhead = false) →
    trueCount ((checkIfShouldResliceAux ms cur).map (fun x => x.resliceAhead)) =
      patternTransitions (elideAll (cur :: ms.map (fun x => x.pattern))) +
        (if cur = Pattern.all ∧ elideAll (ms.map (fun x => x.pattern)) ≠ []
          then 1 else 0) := by
  induction ms with
  | nil =>
    intro cur _
    by_cases hcur : cur = Pattern.all <;>
      simp [checkIfShouldResliceAux, trueCount, elideAll, patternTransitions, hcur]
  | cons m rest ih =>
    intro cur hflags
    have hm : m.resliceAhead = false := hflags m (by simp)
    have hrest : ∀ x ∈ rest, x.resliceAhead = false :=
      fun x hx => hflags x (by simp [hx])
    by_cases hp : m.pattern = Pattern.all
    · have haux : checkIfShouldResliceAux (m :: rest) cur =
          m :: checkIfShouldResliceAux rest cur := by
        simp [checkIfShouldResliceAux, hp]
      rw [haux]
      have hih := ih cur hrest
      by_cases hcur : cur = Pattern.all
      · simp [List.map_cons, trueCount, hm, elideAll_cons, hp, hcur] at hih ⊢
        omega
      · simp [List.map_cons, trueCount, hm, elideAll_cons, hp, hcur] at hih ⊢
        omega
    · by_cases hpc : m.pattern = cur
      · have haux : checkIfShouldResliceAux (m :: rest) cur =
            m :: checkIfShouldResliceAux rest cur := by
          simp [checkIfShouldResliceAux, hpc]
        rw [haux]
        have hcur : cur ≠ Pattern.all := hpc ▸ hp
        have hih := ih cur hrest
        simp [List.map_cons, trueCount, hm, elideAll_cons, hp, hpc, hcur,
          patternTransitions_pair] at hih ⊢
        omega
      · have haux : checkIfShouldResliceAux (m :: rest) cur =
            { m with resliceAhead := true } ::
              checkIfShouldResliceAux rest m.pattern := by
          simp [checkIfShouldResliceAux, hp, hpc]
        rw [haux]
        have hih := ih m.pattern hrest
        have hpc2 : cur ≠ m.pattern := fun h => hpc h.symm
        simp [List.map_cons, elideAll_cons, hp] at hih
        by_cases hcur : cur = Pattern.all
        · simp [List.map_cons, trueCount, elideAll_cons, hp, hcur]
          omega
        · simp [List.map_cons, trueCount, elideAll_cons, hp, hcur, hpc2,
            patternTransitions_pair]
          omega

/-- C1 (amended): for every non-empty step sequence whose reslice flags
start false, the number of true entries in the reslice plan equals the
number of genuine pattern transitions in the All-elided pattern sequence,
plus one extra mark when the sequence begins with an All-patterned step and
a concretely patterned step occurs later (the initial current pattern is
then All, so the first concrete step is marked although the elided
sequence has no transition there). -/
theorem reslicePlan_transitions_amended {α : Type} (m : MethodFunc α)
    (rest : List (MethodFunc α))
    (hflags : ∀ x ∈ m :: rest, x.resliceAhead = false) :
    trueCount (reslicePlan (m :: rest)) =
      patternTransitions (elideAll ((m :: rest).map (fun x => x.pattern))) +
        (if m.pattern = Pattern.all ∧
            elideAll ((m :: rest).map (fun x => x.pattern)) ≠ []
          then 1 else 0) := by
  have h := trueCount_checkAux (m :: rest) m.pattern hflags
  unfold reslicePlan checkIfShouldReslice
  by_cases hp : m.pattern = Pattern.all
  · simp [List.map_cons, elideAll_cons, hp] at h ⊢
    omega
  · simp [List.map_cons, elideAll_cons, hp, patternTransitions_pair] at h ⊢
    omega

/-- C1 (counterexample): for the two-step sequence with patterns
[All, Projection] the reslice plan holds one true entry, but the All-elided
sequence [Projection] has no pattern transition, so the claimed equality
fails as stated. -/
theorem reslicePlan_allFirst_counterexample :
    trueCount (reslicePlan [mkMethod Pattern.all, mkMethod Pattern.projection]) ≠
      patternTransitions (elideAll
        (([mkMethod Pattern.all, mkMethod Pattern.projection]).map
          (fun x => x.pattern))) := by
  decide

/-- C2: applied to the pattern sequence
[Projection, All, Projection, All, Sinogram], the reslice planner yields
exactly the boolean plan [false, false, false, false, true]. -/
theorem reslicePlan_concrete_sequence :
    reslicePlan [mkMethod Pattern.projection, mkMethod Pattern.all,
      mkMethod Pattern.projection, mkMethod Pattern.all,
      mkMethod Pattern.sinogram] = [false, false, false, false, true] := by
  decide

/-- C1 (witness of the amended claim): for patterns
[All, Projection, Sinogram] the plan has 1 + 1 = 2 true entries: one
genuine transition plus the extra mark for the leading All. -/
theorem reslicePlan_transitions_amended_witness :
    trueCount (reslicePlan [mkMethod Pattern.all, mkMethod Pattern.projection,
        mkMethod Pattern.sinogram]) =
      patternTransitions (elideAll
        (([mkMethod Pattern.all, mkMethod Pattern.projection,
          mkMethod Pattern.sinogram]).map (fun x => x.pattern))) +
        (if (mkMethod Pattern.all).pattern = Pattern.all ∧
            elideAll (([mkMethod Pattern.all, mkMethod Pattern.projection,
              mkMethod Pattern.sinogram]).map (fun x => x.pattern)) ≠ []
          then 1 else 0) :=
  reslicePlan_transitions_amended (mkMethod Pattern.all)
    [mkMethod Pattern.projection, mkMethod Pattern.sinogram]
    (by intro x hx
        simp only [List.mem_cons, List.not_mem_nil, or_false] at hx
        rcases hx with rfl | rfl | rfl <;> rfl)


/-! ### Supporting lemmas: platform sectioner -/

theorem sectionsAux_join {α : Type} (l : List (MethodFunc α)) :
    ∀ (g : Bool) (p : Pattern) (acc : List (MethodFunc α)),
      ((determinePlatformSectionsAux l g p acc).map
        (fun s => s.methods)).flatten = acc ++ l := by
  induction l with
  | nil => intro g p acc; simp [determinePlatformSectionsAux]
  | cons m rest ih =>
    intro g p acc
    by_cases h : m.gpu = g ∧
        (m.pattern = p ∨ m.pattern = Pattern.all ∨ p = Pattern.all)
    · rw [show determinePlatformSectionsAux (m :: rest) g p acc =
          determinePlatformSectionsAux rest g
            (if p = Pattern.all ∧ m.pattern ≠ Pattern.all then m.pattern else p)
            (acc ++ [m]) from by
        simp [determinePlatformSectionsAux, h]]
      rw [ih]
      simp
    · rw [show determinePlatformSectionsAux (m :: rest) g p acc =
          ⟨g, p, 0, acc⟩ :: determinePlatformSectionsAux rest m.gpu m.pattern [m]
          from by simp [determinePlatformSectionsAux, h]]
      simp [ih]

theorem sectionsAux_nonempty {α : Type} (l : List (MethodFunc α)) :
    ∀ (g : Bool) (p : Pattern) (acc : List (MethodFunc α)), acc ≠ [] →
      ∀ s ∈ determinePlatformSectionsAux l g p acc, s.methods ≠ [] := by
  induction l with
  | nil =>
    intro g p acc hacc s hs
    simp [determinePlatformSectionsAux] at hs
    subst hs
    exact hacc
  | cons m rest ih =>
    intro g p acc hacc s hs
    by_cases h : m.gpu = g ∧
        (m.pattern = p ∨ m.pattern = Pattern.all ∨ p = Pattern.all)
    · rw [show determinePlatformSectionsAux (m :: rest) g p acc =
          determinePlatformSectionsAux rest g
            (if p = Pattern.all ∧ m.pattern ≠ Pattern.all then m.pattern else p)
            (acc ++ [m]) from by
        simp [determinePlatformSectionsAux, h]] at hs
      exact ih g _ (acc ++ [m]) (by simp) s hs
    · rw [show determinePlatformSectionsAux (m :: rest) g p acc =
          ⟨g, p, 0, acc⟩ :: determinePlatformSectionsAux rest m.gpu m.pattern [m]
          from by simp [determinePlatformSectionsAux, h]] at hs
      rcases List.mem_cons.mp hs with rfl | hs2
      · exact hacc
      · exact ih m.gpu m.pattern [m] (by simp) s hs2

/-- C3: for every non-empty list of post-loader steps, concatenating the
method lists of the platform sections reproduces the original step list
exactly, in order, and no section has an empty method list. -/
theorem platformSections_concat_nonempty {α : Type} (m : MethodFunc α) (rest : List (MethodFunc α)) :
    ((determinePlatformSections (m :: rest)).map
      (fun s => s.methods)).flatten = m :: rest ∧
    ∀ s ∈ determinePlatformSections (m :: rest), s.methods ≠ [] := by
  have hstep : determinePlatformSections (m :: rest) =
      determinePlatformSectionsAux rest m.gpu m.pattern [m] := by
    simp [determinePlatformSections, determinePlatformSectionsAux]
  rw [hstep]
  constructor
  · rw [sectionsAux_join]
    rfl
  · exact sectionsAux_nonempty rest m.gpu m.pattern [m] (by simp)

/-! ### Supporting lemmas: chunk sizer -/

theorem gpuEstimatesLoop_eq_caps {α : Type} (sliceDim mem maxSlices : Nat) :
    ∀ (l : List (MethodFunc α)) (nss : Nat × Nat) (dt : DType),
      gpuEstimatesLoop sliceDim mem maxSlices l nss dt =
        ((sectionStepCaps sliceDim mem l nss dt).1.map (fun c => min maxSlices c),
          (sectionStepCaps sliceDim mem l nss dt).2) := by
  intro l
  induction l with
  | nil => intro nss dt; simp [gpuEstimatesLoop, sectionStepCaps]
  | cons m rest ih =>
    intro nss dt
    cases hm : m.calcMaxSlices with
    | none => simp [gpuEstimatesLoop, sectionStepCaps, hm, ih]
    | some est => simp [gpuEstimatesLoop, sectionStepCaps, hm, ih]

theorem foldr_min_le_init (M : Nat) :
    ∀ (l : List Nat), l.foldr min M ≤ M := by
  intro l
  induction l with
  | nil => exact Nat.le_refl M
  | cons c rest ih => exact le_trans (Nat.min_le_right c _) ih

theorem foldl_min_replicate (M : Nat) :
    ∀ (r a : Nat), (List.replicate (r + 1) M).foldl min a = min a M := by
  intro r
  induction r with
  | zero => intro a; simp [List.replicate]
  | succ r ih =>
    intro a
    rw [List.replicate_succ, List.foldl_cons, ih]
    omega

theorem foldl_min_clamped (M : Nat) :
    ∀ (l : List Nat) (r a : Nat), l ≠ [] ∨ r ≠ 0 →
      ((l.map (fun c => min M c)) ++ List.replicate r M).foldl min a =
        min a (l.foldr min M) := by
  intro l
  induction l with
  | nil =>
    intro r a h
    rcases h with h | h
    · exact absurd rfl h
    · obtain ⟨r0, rfl⟩ := Nat.exists_eq_succ_of_ne_zero h
      simp only [List.map_nil, List.nil_append, List.foldr_nil]
      exact foldl_min_replicate M r0 a
  | cons c rest ih =>
    intro r a _
    simp only [List.map_cons, List.cons_append, List.foldl_cons, List.foldr_cons]
    by_cases hrest : rest = [] ∧ r = 0
    · rcases hrest with ⟨rfl, rfl⟩
      simp
      omega
    · have hcond : rest ≠ [] ∨ r ≠ 0 := by
        by_cases h1 : rest = []
        · right; exact fun h2 => hrest ⟨h1, h2⟩
        · left; exact h1
      rw [ih r (min a (min M c)) hcond]
      have hF := foldr_min_le_init M rest
      omega

theorem exists_head_foldl (M : Nat) (l : List Nat) (r : Nat)
    (h : l ≠ [] ∨ r ≠ 0) :
    ∃ a t, (l.map (fun c => min M c)) ++ List.replicate r M = a :: t ∧
      t.foldl min a = l.foldr min M := by
  cases l with
  | nil =>
    rcases h with h | h
    · exact absurd rfl h
    · obtain ⟨r0, rfl⟩ := Nat.exists_eq_succ_of_ne_zero h
      refine ⟨M, List.replicate r0 M, by simp [List.replicate_succ], ?_⟩
      cases r0 with
      | zero => simp
      | succ r1 => rw [foldl_min_replicate]; simp
  | cons c rest =>
    refine ⟨min M c, (rest.map (fun c => min M c)) ++ List.replicate r M,
      by simp, ?_⟩
    by_cases hrest : rest = [] ∧ r = 0
    · rcases hrest with ⟨rfl, rfl⟩
      simp
      omega
    · have hcond : rest ≠ [] ∨ r ≠ 0 := by
        by_cases h1 : rest = []
        · right; exact fun h2 => hrest ⟨h1, h2⟩
        · left; exact h1
      rw [foldl_min_clamped M rest r (min M c) hcond]
      have hF := foldr_min_le_init M rest
      simp only [List.foldr_cons]
      omega

/-- C4: for a GPU-affine section with known input shape and dtype, the
computed maxSlices is the minimum over the starting candidate (the input
length along the section's slicing axis) and the slice caps contributed by
the estimator-bearing steps, each estimator fed the dtype and non-slice
shape produced by the preceding step (sectionStepCaps); the returned dtype
and non-slice shape are the propagated ones. -/
theorem updateMaxSlices_gpu {α : Type} (sec : PlatformSection α)
    (d0 d1 d2 : Nat) (dt : DType) (mem : Nat) (caps : List Nat) (dtf : DType)
    (dims : Nat × Nat) (hg : sec.gpu = true) (hne : sec.methods ≠ [])
    (hcaps : sectionStepCaps (sectionSliceDim sec.pattern) mem sec.methods
      (sectionNonSliceShape sec.pattern (d0, d1, d2)) dt = (caps, dtf, dims)) :
    updateMaxSlices sec (some (d0, d1, d2)) (some dt) mem =
      some ({ sec with
          maxSlices := caps.foldr min (sectionAxisLen sec.pattern (d0, d1, d2)) },
        dtf, dims) := by
  have hnz : caps ≠ [] ∨ sec.methods.length - caps.length ≠ 0 := by
    by_cases hc : caps = []
    · right
      rw [hc]
      simp only [List.length_nil, Nat.sub_zero]
      exact fun h => hne (List.eq_nil_of_length_eq_zero h)
    · left; exact hc
  obtain ⟨a, t, heq, hfold⟩ := exists_head_foldl
    (sectionAxisLen sec.pattern (d0, d1, d2)) caps
    (sec.methods.length - caps.length) hnz
  simp only [updateMaxSlices, hg, if_true, gpuEstimatesLoop_eq_caps, hcaps,
    List.length_map]
  rw [heq]
  simp [hfold]

/-- C5: for a CPU-affine (non-GPU) section with known input shape, the
computed maxSlices equals the input volume's length along the section's
slicing axis (axis 1 for Sinogram, axis 0 for Projection or All),
regardless of any estimator carried by the section's steps. -/
theorem updateMaxSlices_cpu {α : Type} (sec : PlatformSection α)
    (d0 d1 d2 : Nat) (dt : DType) (mem : Nat) (hg : sec.gpu = false) :
    updateMaxSlices sec (some (d0, d1, d2)) (some dt) mem =
      some ({ sec with
          maxSlices := if sec.pattern = Pattern.sinogram then d1 else d0 },
        dt, if sec.pattern = Pattern.sinogram then (d0, d2) else (d1, d2)) := by
  by_cases hp : sec.pattern = Pattern.sinogram <;>
    simp [updateMaxSlices, hg, sectionAxisLen, sectionNonSliceShape, hp]

/-! ### Supporting lemmas: sweep execution -/

theorem setParam_setParam {α : Type} (k : String) (v w : PVal α) :
    ∀ (ps : ParamMap α), setParam (setParam ps k v) k w = setParam ps k w := by
  intro ps
  induction ps with
  | nil => simp [setParam]
  | cons p rest ih =>
    obtain ⟨k0, v0⟩ := p
    by_cases h : k0 = k
    · simp [setParam, h]
    · simp [setParam, h, ih]

theorem sweepLoop_results {α : Type} (fw : Executor α) (mname pname : String)
    (data : Obj α) :
    ∀ (vals : List α) (params : ParamMap α) (tr : List String),
      (sweepLoop fw mname pname vals params data tr).1 =
        vals.map (fun v =>
          fw mname (setParam params pname (PVal.scalar v)) data) ∧
      (sweepLoop fw mname pname vals params data tr).2.2 =
        tr ++ List.replicate vals.length mname := by
  intro vals
  induction vals with
  | nil => intro params tr; simp [sweepLoop]
  | cons v rest ih =>
    intro params tr
    simp only [sweepLoop, List.map_cons, List.length_cons]
    constructor
    · rw [(ih _ _).1]
      refine congrArg (fun l => _ :: l) ?_
      apply List.map_congr_left
      intro w _
      rw [setParam_setParam]
    · rw [(ih _ _).2]
      rw [List.append_assoc]
      rw [List.replicate_succ]
      rfl

/-- C6: executing a step that declares a sweep of one parameter over a
tuple of values and has a single input and a single output dataset stores,
under the output dataset name, an ordered list with one element per tuple
value, the i-th element being the result of invoking the step with the
i-th value, in tuple order; the trace records one invocation per value. -/
theorem runMethod_sweep_fanout {α : Type} (fw : Executor α)
    (transport : Obj α → Obj α) (info : RunMethodInfo α) (reg : Registry α)
    (tr : List String) (pname : String) (vals : List α) (inD s : String)
    (h1 : info.paramSweepName = some pname)
    (h2 : info.paramSweepVals = vals)
    (h3 : info.dataIn = [inD])
    (h4 : info.dataOut = [OutSpec.one s])
    (h5 : info.methodName ≠ "save_to_images")
    (h6 : info.shouldReslice = false) :
    runMethod fw transport info reg tr =
      (tr ++ List.replicate vals.length info.methodName,
        Except.ok (Function.update reg s (Obj.list (vals.map (fun v =>
          fw info.methodName (setParam info.dictParams pname (PVal.scalar v))
            (reg inD)))))) := by
  obtain ⟨dictParams, dataIn, dataOut, shouldReslice, sweepName, sweepVals,
    mname⟩ := info
  dsimp only at h1 h2 h3 h4 h5 h6 ⊢
  subst h1 h2 h3 h4 h6
  have hres := sweepLoop_results fw mname pname (reg inD) sweepVals dictParams tr
  simp only [runMethod, datasetLoop, List.get?_cons_zero, OutSpec.isMany,
    Option.isSome_some, and_true, true_and, not_false_eq_true, if_false,
    if_true, Bool.false_eq_true, false_and, if_neg h5, arrLoop,
    postrunMethod, List.nil_append]
  simp only [if_pos h5, arrLoop, Bool.false_eq_true, if_false,
    List.nil_append]
  rw [hres.1, hres.2]

/-- C7: when the pipeline's steps declare more than one tuple-valued
parameter, run_tasks raises the fatal sweep-count error during planning:
the result is the error with an empty invocation trace - no step (loader
included) has executed and no registry is produced, for every executor and
transport. -/
theorem runTasks_multiple_sweeps {α : Type} (methods : List (MethodFunc α))
    (loaderData flats darks : Obj α) (fw : Executor α)
    (transport : Obj α → Obj α)
    (h : (methods.map (fun m => checkParamsForSweep m.parameters)).sum > 1) :
    runTasks methods loaderData flats darks fw transport =
      ([], Except.error (sweepCountErr
        (methods.map (fun m => checkParamsForSweep m.parameters)).sum)) := by
  cases methods with
  | nil => simp at h
  | cons loader rest =>
    simp only [runTasks]
    rw [if_pos h]

/-- C8 (amended): a parameter sweep combined with the image saver, or
with a multi-output first output entry, is a fatal configuration error -
but it is raised inside run_method when the offending step is reached
(before that step invokes its executor: the trace is returned unchanged),
not during plan resolution; steps earlier in the pipeline have already
executed by then. -/
theorem runMethod_sweep_config_errors_amended {α : Type} (fw : Executor α)
    (transport : Obj α → Obj α) (info : RunMethodInfo α) (reg : Registry α)
    (tr : List String) (pname : String) (inD : String) (restIn : List String)
    (h1 : info.paramSweepName = some pname)
    (h3 : info.dataIn = inD :: restIn) :
    (info.methodName = "save_to_images" →
      runMethod fw transport info reg tr = (tr, Except.error saverSweepErr)) ∧
    (∀ (names : List String) (ds : List OutSpec),
      info.methodName ≠ "save_to_images" →
      info.dataOut = OutSpec.many names :: ds →
      runMethod fw transport info reg tr =
        (tr, Except.error multiOutSweepErr)) := by
  constructor
  · intro hsave
    simp only [runMethod, h3, datasetLoop]
    rw [if_pos ⟨hsave, by simp [h1]⟩]
  · intro names ds hns hout
    simp only [runMethod, h3, datasetLoop, hout, List.get?_cons_zero]
    rw [if_neg (fun hc => hns hc.1)]
    simp only [OutSpec.isMany, h1, Option.isSome_some, and_true, if_true]

/-- C8 (counterexample): in a pipeline whose third step combines a sweep
with multiple output datasets, the run does abort with the sweep/multi-
output error, but only after the second step has already executed (the
invocation trace is the non-empty [normalize]), contradicting the claim
that the error is raised before any data is processed. -/
theorem runTasks_config_error_after_step_counterexample :
    runTasks [cexLoader, cexNormalize, cexSweepMultiOut] (Obj.arr 1)
        (Obj.arr 2) (Obj.arr 3) fwConst (fun o => o) =
      (["normalize"], Except.error multiOutSweepErr) ∧
    ["normalize"] ≠ ([] : List String) :=
  ⟨rfl, by decide⟩

/-! ### Supporting lemmas: rotation coordinator -/

theorem midRank_closed (n : Nat) :
    midRank n = if n % 2 = 0 then ((n / 2 : Nat) : ℤ)
      else if (n / 2) % 2 = 0 then ((n / 2 : Nat) : ℤ)
      else ((n / 2 : Nat) : ℤ) + 1 := by
  obtain ⟨k, hk | hk⟩ : ∃ k, n = 2 * k ∨ n = 2 * k + 1 := ⟨n / 2, by omega⟩
  · subst hk
    have h2 : ((2 * k : Nat) : ℚ) / 2 = (k : ℚ) := by push_cast; ring
    have hmod : (2 * k) % 2 = 0 := by omega
    have hdiv : (2 * k) / 2 = k := by omega
    rw [midRank, h2, hmod, hdiv]
    simp only [roundHalfEven, Int.floor_natCast, sub_self]
    norm_num
  · subst hk
    have h2 : ((2 * k + 1 : Nat) : ℚ) / 2 = (1 : ℚ) / 2 + (k : Nat) := by
      push_cast; ring
    have hmod : (2 * k + 1) % 2 = 1 := by omega
    have hdiv : (2 * k + 1) / 2 = k := by omega
    rw [midRank, h2, hmod, hdiv]
    have hfl : Int.floor ((1 : ℚ) / 2 + (k : Nat)) = (k : ℤ) := by
      rw [Int.floor_add_nat]
      norm_num
    simp only [roundHalfEven, hfl]
    have hr : (1 : ℚ) / 2 + (k : Nat) - ((k : ℤ) : ℚ) = 1 / 2 := by
      push_cast; ring
    rw [hr]
    simp only [lt_irrefl, if_false, if_neg (lt_irrefl ((1 : ℚ)/2))]
    have hcast : (k : ℤ) % 2 = ((k % 2 : Nat) : ℤ) := by
      push_cast; rfl
    by_cases hk2 : k % 2 = 0
    · rw [if_pos (by rw [hcast, hk2]; rfl), if_pos hk2]
      simp
    · rw [if_neg (by rw [hcast]; omega), if_neg hk2]
      simp


/-- C9 (amended): the centering step's coordinating worker is
int(round(n / 2) + 0.1), i.e. n / 2 rounded half to even - n / 2 for even
n, and for odd n the even one of n / 2 and n / 2 + 1 - not
round(n / 2 + 0.1); only that worker computes the value (all other ranks
keep the initialisation value) and the broadcast hands every worker the
coordinator's value. -/
theorem rotation_coordinator_amended {α : Type} (n : Nat) (computed init : α) :
    midRank n = (if n % 2 = 0 then ((n / 2 : Nat) : ℤ)
      else if (n / 2) % 2 = 0 then ((n / 2 : Nat) : ℤ)
      else ((n / 2 : Nat) : ℤ) + 1) ∧
    rotationLocalValue n (midRankNat n) computed init = computed ∧
    (∀ rank : Nat, rank ≠ midRankNat n →
      rotationLocalValue n rank computed init = init) ∧
    rotationBroadcastValue n computed init = computed := by
  refine ⟨midRank_closed n, ?_, ?_, ?_⟩
  · simp [rotationLocalValue]
  · intro rank hr
    simp [rotationLocalValue, hr]
  · simp [rotationBroadcastValue, rotationLocalValue]

/-! ### Supporting lemmas: wrapper kwargs merge -/

theorem lookupParam_append {α : Type} (l2 : ParamMap α) (k : String) :
    ∀ (l1 : ParamMap α),
      lookupParam (l1 ++ l2) k =
        match lookupParam l1 k with
        | some v => some v
        | none => lookupParam l2 k := by
  intro l1
  induction l1 with
  | nil => simp [lookupParam]
  | cons p rest ih =>
    obtain ⟨k0, v0⟩ := p
    by_cases hk : k0 = k <;> simp [lookupParam, hk, ih]

theorem lookupParam_map_override {α : Type} (b : ParamMap α) (k : String) :
    ∀ (a : ParamMap α),
      lookupParam (a.map (fun p => (p.1, (lookupParam b p.1).getD p.2))) k =
        (lookupParam a k).map (fun v => (lookupParam b k).getD v) := by
  intro a
  induction a with
  | nil => simp [lookupParam]
  | cons p rest ih =>
    obtain ⟨k0, v0⟩ := p
    by_cases hk : k0 = k
    · subst hk
      simp [lookupParam]
    · simp [lookupParam, hk, ih]

theorem lookupParam_filter_keep {α : Type} (a : ParamMap α) (k : String) :
    ∀ (b : ParamMap α),
      lookupParam (b.filter (fun p => (lookupParam a p.1).isNone)) k =
        if (lookupParam a k).isNone then lookupParam b k else none := by
  intro b
  induction b with
  | nil => simp [lookupParam]
  | cons p rest ih =>
    obtain ⟨k0, v0⟩ := p
    by_cases hk : k0 = k
    · subst hk
      by_cases ha : (lookupParam a k0).isNone
      · simp [List.filter_cons, ha, lookupParam, ih]
      · simp [List.filter_cons, ha, lookupParam, ih]
    · by_cases ha : (lookupParam a k0).isNone
      · simp [List.filter_cons, ha, lookupParam, hk, ih]
      · simp [List.filter_cons, ha, lookupParam, hk, ih]

theorem lookupParam_dictMerge {α : Type} (a b : ParamMap α) (k : String) :
    lookupParam (dictMerge a b) k =
      match lookupParam a k, lookupParam b k with
      | some _, some vb => some vb
      | some va, none => some va
      | none, vb => vb := by
  unfold dictMerge
  rw [lookupParam_append, lookupParam_map_override, lookupParam_filter_keep]
  cases ha : lookupParam a k <;> cases hb : lookupParam b k <;> simp

/-- C10: for a httomolibgpu method whose underlying function supports
GPU, calc_max_slices invokes the declared per-step estimator with the four
contract arguments plus keyword arguments built from the signature's
default parameter values overridden by the user parameters: a user value
always wins, and a key the user does not set falls back to its signature
default. -/
theorem calcMaxSlices_kwargs_general {α : Type} (w : HttomolibgpuWrapper α)
    (sliceDim : Nat) (nss : Nat × Nat) (dtype : DType) (mem : Nat)
    (hc : w.cupyrun = true) :
    w.calcMaxSlices sliceDim nss dtype mem =
      w.metaCalcMaxSlices sliceDim nss dtype mem
        (dictMerge w.signatureDefaults w.dictParams) ∧
    (∀ (k : String) (v : PVal α), lookupParam w.dictParams k = some v →
      lookupParam (dictMerge w.signatureDefaults w.dictParams) k = some v) ∧
    (∀ k : String, lookupParam w.dictParams k = none →
      lookupParam (dictMerge w.signatureDefaults w.dictParams) k =
        lookupParam w.signatureDefaults k) := by
  refine ⟨?_, ?_, ?_⟩
  · simp [HttomolibgpuWrapper.calcMaxSlices, hc]
  · intro k v hv
    rw [lookupParam_dictMerge, hv]
    cases lookupParam w.signatureDefaults k <;> rfl
  · intro k hv
    rw [lookupParam_dictMerge, hv]
    cases lookupParam w.signatureDefaults k <;> rfl

/-- C4 (witness): two GPU steps whose estimators return caps 120 and 45
on a (180, 128, 160) projection volume give the section maxSlices 45. -/
theorem updateMaxSlices_gpu_witness :
    updateMaxSlices gpuSec (some (180, 128, 160)) (some DType.float32)
        1000000 =
      some ({ gpuSec with maxSlices := [120, 45].foldr min 180 },
        DType.float32, (128, 160)) ∧
    [120, 45].foldr min 180 = 45 :=
  ⟨updateMaxSlices_gpu gpuSec 180 128 160 DType.float32 1000000 [120, 45]
      DType.float32 (128, 160) rfl (by simp [gpuSec]) rfl, rfl⟩

/-- C5 (witness): a sinogram-patterned CPU section over a (7, 9, 11)
volume gets maxSlices 9 - the axis-1 length - despite its estimator. -/
theorem updateMaxSlices_cpu_witness :
    updateMaxSlices cpuSec (some (7, 9, 11)) (some DType.uint16) 5 =
      some ({ cpuSec with maxSlices := 9 }, DType.uint16, (7, 11)) := by
  have h := updateMaxSlices_cpu cpuSec 7 9 11 DType.uint16 5 rfl
  simpa [cpuSec] using h

/-- C6 (witness): sweeping center over (10, 20, 30) stores the ordered
three-element list of per-value results under the output dataset. -/
theorem runMethod_sweep_fanout_witness :
    runMethod fwSweep (fun o => o) sweepInfo (fun _ => Obj.none') [] =
      (["sweeper", "sweeper", "sweeper"],
        Except.ok (Function.update (fun _ => Obj.none') "out"
          (Obj.list [Obj.arr 10, Obj.arr 20, Obj.arr 30]))) :=
  runMethod_sweep_fanout fwSweep (fun o => o) sweepInfo
    (fun _ => Obj.none') [] "center" [10, 20, 30] "norm" "out"
    rfl rfl rfl rfl (by decide) rfl

/-- C7 (witness): a pipeline declaring two independent sweeps aborts
with the sweep-count error and an empty invocation trace. -/
theorem runTasks_multiple_sweeps_witness :
    runTasks [cexLoader, sweepStepA, sweepStepB] (Obj.arr 1) (Obj.arr 2)
        (Obj.arr 3) fwConst (fun o => o) =
      ([], Except.error (sweepCountErr 2)) :=
  runTasks_multiple_sweeps [cexLoader, sweepStepA, sweepStepB] (Obj.arr 1)
    (Obj.arr 2) (Obj.arr 3) fwConst (fun o => o) (by decide)

/-- C8 (witness of the amended claim): a sweeping saver step and a
sweeping multi-output step each abort with their configuration error,
leaving the incoming trace unchanged. -/
theorem runMethod_sweep_config_errors_witness :
    runMethod fwConst (fun o => o) saverSweepInfo (fun _ => Obj.none')
        ["earlier"] = (["earlier"], Except.error saverSweepErr) ∧
    runMethod fwConst (fun o => o) multiOutSweepInfo (fun _ => Obj.none')
        ["earlier"] = (["earlier"], Except.error multiOutSweepErr) :=
  ⟨(runMethod_sweep_config_errors_amended fwConst (fun o => o) saverSweepInfo
      (fun _ => Obj.none') ["earlier"] "center" "x" [] rfl rfl).1 rfl,
    (runMethod_sweep_config_errors_amended fwConst (fun o => o)
      multiOutSweepInfo (fun _ => Obj.none') ["earlier"] "center" "x" []
      rfl rfl).2 ["a", "b"] [] (by decide) rfl⟩

/-- C9 (witness of the amended claim): with 5 workers rank 2
coordinates - it alone computes, rank 1 keeps the initial value, and the
broadcast distributes the coordinator's value. -/
theorem rotation_coordinator_witness :
    rotationLocalValue 5 2 (7 : Nat) 0 = 7 ∧
    rotationLocalValue 5 1 (7 : Nat) 0 = 0 ∧
    rotationBroadcastValue 5 (7 : Nat) 0 = 7 := by
  have h := rotation_coordinator_amended 5 (7 : Nat) 0
  have hm : midRankNat 5 = 2 := by
    unfold midRankNat
    rw [h.1]
    decide
  exact ⟨by rw [← hm]; exact h.2.1, h.2.2.1 1 (by rw [hm]; decide), h.2.2.2⟩

/-- C10 (witness): for the normalize wrapper state of the kwargs test,
the estimator receives the merged kwargs in which the user's
minus_log=True overrides the default and the untouched cutoff default
survives. -/
theorem calcMaxSlices_kwargs_witness :
    normalizeWrapper.calcMaxSlices 0 (100, 100) DType.uint8 50000 =
      normalizeWrapper.metaCalcMaxSlices 0 (100, 100) DType.uint8 50000
        (dictMerge normalizeWrapper.signatureDefaults
          normalizeWrapper.dictParams) ∧
    lookupParam (dictMerge normalizeWrapper.signatureDefaults
        normalizeWrapper.dictParams) "minus_log" = some (PVal.pbool true) ∧
    lookupParam (dictMerge normalizeWrapper.signatureDefaults
        normalizeWrapper.dictParams) "cutoff" = some (PVal.scalar 10) := by
  have h := calcMaxSlices_kwargs_general normalizeWrapper 0 (100, 100)
    DType.uint8 50000 rfl
  exact ⟨h.1, h.2.1 "minus_log" (PVal.pbool true) rfl,
    (h.2.2 "cutoff" rfl).trans rfl⟩

/-- C9 (counterexample): with 5 workers the code's selection
int(round(5 / 2) + 0.1) picks rank 2 (banker's rounding of 2.5), while the
claimed formula round(5 / 2 + 0.1) yields 3, so the claimed selection rule
disagrees with the code. -/
theorem midRank_formula_counterexample :
    midRank 5 = 2 ∧ specMidRank 5 = 3 ∧ midRank 5 ≠ specMidRank 5 := by
  have h1 : midRank 5 = 2 := by norm_num [midRank, roundHalfEven]
  have h2 : specMidRank 5 = 3 := by norm_num [specMidRank, roundHalfEven]
  refine ⟨h1, h2, ?_⟩
  rw [h1, h2]
  decide
